import Mathlib

/-!
# GoTuskGo command-line scripts: a shallow embedding

The repository holds two Python scripts wrapping the external `textgenrnn`
text-generation library:

* `src/python/train.py` — sets CPU affinity to the current affinity list with
  its first two entries dropped, constructs a fresh model handle, replaces it
  by a loaded one when a file exists at the save path, trains from the corpus
  file for the requested epoch count, and saves to the save path.
* `src/python/generate.py` — loads a model from the load path and generates
  the requested number of lines at the given temperature with the given
  maximum generation length.

The external library's code is not part of this repository; it appears here
as an abstract operation table `Lib` (following the external-collaborator
contract of the specification) and a contract `LawfulLib` stating the
guarantees the specification assigns to it.  Each script is embedded as a
function producing the event trace of library/OS calls made, the resulting
file system, and the process result.
-/

/-- A file on disk: either plain text (a training corpus) or a persisted
model artifact of the abstract artifact type `A`. -/
inductive File (A : Type) where
  | text (s : String)
  | artifact (a : A)
deriving DecidableEq

/-- The file system: a map from path to file contents (`none` = no file at
that path, so `os.path.isfile` is `(fs p).isSome`). -/
abbrev FS (A : Type) := String → Option (File A)

/-- Functional update of the file system at one path. -/
def fsUpdate {A : Type} (fs : FS A) (p : String) (f : File A) : FS A :=
  fun q => if q = p then some f else fs q

/-- Operation table of the external `textgenrnn` library, as the scripts use
it.  `M` is the in-memory model handle type, `A` the persisted artifact
type, `T` the (opaque) temperature type.  `load` and `train_from_file` and
`generate` may fail (`none` = the library raises). -/
structure Lib (M A T : Type) where
  /-- Constructor call `textgenrnn()`: a freshly initialized model handle. -/
  init : M
  /-- Constructor call `textgenrnn(path)`: load a model from the file found
  at the path. -/
  load : File A → Option M
  /-- Call `textgen.train_from_file(path, num_epochs=n)` on the corpus
  file's contents; mutates the handle, so the result is the updated handle. -/
  train_from_file : M → File A → Int → Option M
  /-- Call `textgen.save(path)`: the artifact persisted for this handle. -/
  save : M → A
  /-- Call `textgen.generate(n, temperature=t, max_gen_length=len)`: the
  lines generated (the script's `int(...)` for the count is fed through
  Python's `range`, which treats a negative count as zero, hence `Nat`). -/
  generate : M → Nat → T → Int → Option (List String)

/-- Modelled from the spec: the external library's own code is not under
`src/`, so these are the guarantees the specification's external-collaborator
contract and testable properties assign to it — `generate` yields exactly the
requested number of lines, each no longer than the maximum generation length,
and an artifact written by `save` is loadable again. -/
structure LawfulLib {M A T : Type} (lib : Lib M A T) : Prop where
  genCount : ∀ m n t len out, lib.generate m n t len = some out → out.length = n
  genMaxLen : ∀ m n t len out s, lib.generate m n t len = some out → s ∈ out →
      (s.length : Int) ≤ len
  saveLoadable : ∀ m, (lib.load (File.artifact (lib.save m))).isSome = true

/-- Process environment: the CPU affinity list at process start
(`p.cpu_affinity()`), whether the OS/psutil rejects setting a given affinity
list (platform- and psutil-version-dependent, e.g. whether an empty list is
an error or means "all eligible CPUs"), and the Python `float` builtin used
to parse the temperature argument (its numeric semantics are opaque here). -/
structure Env (T : Type) where
  cpus : List Nat
  affinityFails : List Nat → Bool
  parseFloat : String → Option T

/-- Events observable in a script run: OS affinity calls, library calls
(recording the handle they are invoked on) and emitted output lines. -/
inductive Ev (M T : Type) where
  | setAffinity (cpus : List Nat)
  | libInit
  | libLoad (path : String)
  | libTrain (handle : M) (path : String) (epochs : Int)
  | libSave (handle : M) (path : String)
  | libGenerate (handle : M) (count : Nat) (temp : T) (maxLen : Int)
  | emit (line : String)
deriving DecidableEq

/-- How a run ends: Python exceptions become nonzero process exits. -/
inductive Err where
  | indexError
  | valueError
  | affinityError
  | libError
deriving DecidableEq

/-- Process result of a run. -/
inductive Result where
  | ok
  | err (e : Err)
deriving DecidableEq

/-- Process exit code: 0 on success, 1 (Python's uncaught-exception exit)
otherwise. -/
def exitCode : Result → Nat
  | .ok => 0
  | .err _ => 1

/-- Everything observable about one script invocation. -/
structure RunOut (M A T : Type) where
  trace : List (Ev M T)
  fs : FS A
  res : Result

/-- The lines printed by a run, in order. -/
def outputLines {M T : Type} (tr : List (Ev M T)) : List String :=
  tr.filterMap fun e => match e with
    | .emit s => some s
    | _ => none

/-- Helper for `pyInt`: a nonempty all-digit character list read in base 10. -/
def digitsToNat (cs : List Char) : Option Nat :=
  if cs ≠ [] ∧ cs.all Char.isDigit then
    some (cs.foldl (fun a c => a * 10 + (c.toNat - 48)) 0)
  else none

/-- Surrounding whitespace stripped from a character list (Python's
`str.strip()` as applied by `int(...)`). -/
def stripWS (cs : List Char) : List Char :=
  ((cs.dropWhile Char.isWhitespace).reverse.dropWhile Char.isWhitespace).reverse

/-- Model of the Python builtin `int(str)`: surrounding whitespace stripped,
optional sign, then a nonempty digit string; anything else raises
`ValueError` (`none`).  (Python's underscore digit grouping is not modelled;
it only makes more strings well-formed and no claim depends on it.) -/
def pyInt (s : String) : Option Int :=
  match stripWS s.toList with
  | '-' :: rest => (digitsToNat rest).map (fun n => -(n : Int))
  | '+' :: rest => (digitsToNat rest).map (fun n => (n : Int))
  | cs => (digitsToNat cs).map (fun n => (n : Int))

/-- The tail of `train.py` from the `train_from_file` line on: evaluates
`str(sys.argv[1])` and `int(sys.argv[2])` (in that order, as Python evaluates
call arguments), calls `train_from_file` on the handle `m` obtained by the
load-or-create step, then `save(str(sys.argv[3]))`.  `tr` is the trace
accumulated so far. -/
def trainCont {M A T : Type} (lib : Lib M A T) (fs : FS A) (argv : List String)
    (savePath : String) (tr : List (Ev M T)) (m : M) : RunOut M A T :=
  match argv.get? 1 with
  | none => ⟨tr, fs, .err .indexError⟩
  | some corpusPath =>
    match argv.get? 2 with
    | none => ⟨tr, fs, .err .indexError⟩
    | some epochsStr =>
      match pyInt epochsStr with
      | none => ⟨tr, fs, .err .valueError⟩
      | some n =>
        match fs corpusPath with
        | none => ⟨tr ++ [.libTrain m corpusPath n], fs, .err .libError⟩
        | some corpusFile =>
          match lib.train_from_file m corpusFile n with
          | none => ⟨tr ++ [.libTrain m corpusPath n], fs, .err .libError⟩
          | some m2 =>
            ⟨tr ++ [.libTrain m corpusPath n, .libSave m2 savePath],
             fsUpdate fs savePath (.artifact (lib.save m2)), .ok⟩

/-- `src/python/train.py`: set CPU affinity to the current list minus its
first two entries (`p.cpu_affinity(p.cpu_affinity()[2:])`), build a fresh
handle (`textgenrnn()`), replace it by the loaded one when
`os.path.isfile(sys.argv[3])`, then train and save via `trainCont`. -/
def trainRun {M A T : Type} (env : Env T) (lib : Lib M A T) (fs : FS A)
    (argv : List String) : RunOut M A T :=
  if env.affinityFails (env.cpus.drop 2) then
    ⟨[.setAffinity (env.cpus.drop 2)], fs, .err .affinityError⟩
  else
    match argv.get? 3 with
    | none => ⟨[.setAffinity (env.cpus.drop 2), .libInit], fs, .err .indexError⟩
    | some savePath =>
      match fs savePath with
      | some f =>
        match lib.load f with
        | none =>
          ⟨[.setAffinity (env.cpus.drop 2), .libInit, .libLoad savePath],
           fs, .err .libError⟩
        | some m =>
          trainCont lib fs argv savePath
            [.setAffinity (env.cpus.drop 2), .libInit, .libLoad savePath] m
      | none =>
        trainCont lib fs argv savePath
          [.setAffinity (env.cpus.drop 2), .libInit] lib.init

/-- Evaluation of the argument expressions of the `generate` call in
`generate.py`, in Python's left-to-right order: `int(sys.argv[3])`,
`float(sys.argv[2])`, `int(sys.argv[4])`. -/
def genArgs {T : Type} (env : Env T) (argv : List String) :
    Except Err (Int × T × Int) :=
  match argv.get? 3 with
  | none => .error .indexError
  | some lineCountStr =>
    match pyInt lineCountStr with
    | none => .error .valueError
    | some lineCount =>
      match argv.get? 2 with
      | none => .error .indexError
      | some tempStr =>
        match env.parseFloat tempStr with
        | none => .error .valueError
        | some temp =>
          match argv.get? 4 with
          | none => .error .indexError
          | some maxStr =>
            match pyInt maxStr with
            | none => .error .valueError
            | some maxChars => .ok (lineCount, temp, maxChars)

/-- `src/python/generate.py`: `textgen = textgenrnn(str(sys.argv[1]))` (the
library opens the file at the path, so a missing or unloadable file raises),
then `textgen.generate(int(sys.argv[3]), temperature=float(sys.argv[2]),
max_gen_length=int(sys.argv[4]))`, printing each generated line. -/
def genRun {M A T : Type} (env : Env T) (lib : Lib M A T) (fs : FS A)
    (argv : List String) : RunOut M A T :=
  match argv.get? 1 with
  | none => ⟨[], fs, .err .indexError⟩
  | some loadPath =>
    match fs loadPath with
    | none => ⟨[.libLoad loadPath], fs, .err .libError⟩
    | some f =>
      match lib.load f with
      | none => ⟨[.libLoad loadPath], fs, .err .libError⟩
      | some m =>
        match genArgs env argv with
        | .error e => ⟨[.libLoad loadPath], fs, .err e⟩
        | .ok (lineCount, temp, maxChars) =>
          match lib.generate m lineCount.toNat temp maxChars with
          | none =>
            ⟨[.libLoad loadPath, .libGenerate m lineCount.toNat temp maxChars],
             fs, .err .libError⟩
          | some lines =>
            ⟨[.libLoad loadPath, .libGenerate m lineCount.toNat temp maxChars]
               ++ lines.map .emit, fs, .ok⟩

/-! ## Concrete instances used to exercise the embedding -/

/-- A tiny concrete instantiation of the library interface, used to evaluate
the scripts on concrete inputs: handles and artifacts are numbers, a handle
loads from an artifact file and not from a text file, training adds the
epoch count, and generation yields the requested number of fixed lines. -/
def natLib : Lib Nat Nat Nat where
  init := 0
  load := fun f => match f with
    | .artifact a => some a
    | .text _ => none
  train_from_file := fun m _ n => some (m + n.toNat)
  save := fun m => m
  generate := fun _ n _ len => if 0 ≤ len then some (List.replicate n "") else none

/-- A four-CPU environment whose affinity calls always succeed. -/
def demoEnv : Env Nat := ⟨[0, 1, 2, 3], fun _ => false, fun s => (pyInt s).map Int.toNat⟩

/-- A two-CPU environment whose affinity calls always succeed (psutil ≥ 4.2.0
accepts an empty affinity list, reading it as "all eligible CPUs"). -/
def tinyEnv : Env Nat := ⟨[0, 1], fun _ => false, fun s => (pyInt s).map Int.toNat⟩

/-- A one-CPU environment on a platform that rejects an empty affinity list
(as psutil did before 4.2.0). -/
def strictEnv : Env Nat := ⟨[0], fun l => l.isEmpty, fun s => (pyInt s).map Int.toNat⟩

/-- A file system holding a model artifact and a training corpus. -/
def demoFs : FS Nat := fun p =>
  if p = "model.bin" then some (.artifact 7)
  else if p = "corpus.txt" then some (.text "tusk") else none

/-- A file system holding only a training corpus and no model artifact. -/
def corpusFs : FS Nat := fun p =>
  if p = "corpus.txt" then some (.text "tusk") else none

/-- An empty file system. -/
def emptyFs : FS Nat := fun _ => none

/-! ## Helper lemmas about the two runs -/

theorem outputLines_append {M T : Type} (t1 t2 : List (Ev M T)) :
    outputLines (t1 ++ t2) = outputLines t1 ++ outputLines t2 :=
  List.filterMap_append t1 t2 _

theorem outputLines_map_emit {M T : Type} (l : List String) :
    outputLines (l.map (Ev.emit (M := M) (T := T))) = l := by
  induction l with
  | nil => rfl
  | cons a l ih => simpa [outputLines] using ih

theorem trainCont_shape {M A T : Type} (lib : Lib M A T) (fs : FS A)
    (argv : List String) (sp : String) (tr : List (Ev M T)) (m : M) :
    ((trainCont lib fs argv sp tr m).res = .ok ∧
      ∃ c es n cf m2, argv.get? 1 = some c ∧ argv.get? 2 = some es ∧
        pyInt es = some n ∧ fs c = some cf ∧
        lib.train_from_file m cf n = some m2 ∧
        trainCont lib fs argv sp tr m =
          ⟨tr ++ [.libTrain m c n, .libSave m2 sp],
           fsUpdate fs sp (.artifact (lib.save m2)), .ok⟩) ∨
    ((trainCont lib fs argv sp tr m).res ≠ .ok ∧
      (trainCont lib fs argv sp tr m).fs = fs ∧
      ∃ suf, (trainCont lib fs argv sp tr m).trace = tr ++ suf ∧
        (∀ mh p, Ev.libSave mh p ∉ suf) ∧
        (∀ mh c n, Ev.libTrain mh c n ∈ suf → mh = m)) := by
  unfold trainCont
  repeat' split
  · exact Or.inr ⟨by simp, rfl, [], by simp, by simp, by simp⟩
  · exact Or.inr ⟨by simp, rfl, [], by simp, by simp, by simp⟩
  · exact Or.inr ⟨by simp, rfl, [], by simp, by simp, by simp⟩
  · rename_i x1 c h1 x2 es h2 x3 n h3 x4 h4
    exact Or.inr ⟨by simp, rfl, [.libTrain m c n], rfl, by simp,
      by intro mh c2 n2 hmem; simp at hmem; exact hmem.1⟩
  · rename_i x1 c h1 x2 es h2 x3 n h3 x4 cf h4 x5 h5
    exact Or.inr ⟨by simp, rfl, [.libTrain m c n], rfl, by simp,
      by intro mh c2 n2 hmem; simp at hmem; exact hmem.1⟩
  · rename_i x1 c h1 x2 es h2 x3 n h3 x4 cf h4 x5 m2 h5
    exact Or.inl ⟨rfl, c, es, n, cf, m2, h1, h2, h3, h4, h5, rfl⟩

theorem trainRun_shape {M A T : Type} (env : Env T) (lib : Lib M A T)
    (fs : FS A) (argv : List String) :
    (env.affinityFails (env.cpus.drop 2) = true ∧
      trainRun env lib fs argv =
        ⟨[.setAffinity (env.cpus.drop 2)], fs, .err .affinityError⟩) ∨
    (env.affinityFails (env.cpus.drop 2) = false ∧ argv.get? 3 = none ∧
      trainRun env lib fs argv =
        ⟨[.setAffinity (env.cpus.drop 2), .libInit], fs, .err .indexError⟩) ∨
    (∃ sp f, env.affinityFails (env.cpus.drop 2) = false ∧
      argv.get? 3 = some sp ∧ fs sp = some f ∧ lib.load f = none ∧
      trainRun env lib fs argv =
        ⟨[.setAffinity (env.cpus.drop 2), .libInit, .libLoad sp],
         fs, .err .libError⟩) ∨
    (∃ sp f m, env.affinityFails (env.cpus.drop 2) = false ∧
      argv.get? 3 = some sp ∧ fs sp = some f ∧ lib.load f = some m ∧
      trainRun env lib fs argv =
        trainCont lib fs argv sp
          [.setAffinity (env.cpus.drop 2), .libInit, .libLoad sp] m) ∨
    (∃ sp, env.affinityFails (env.cpus.drop 2) = false ∧
      argv.get? 3 = some sp ∧ fs sp = none ∧
      trainRun env lib fs argv =
        trainCont lib fs argv sp
          [.setAffinity (env.cpus.drop 2), .libInit] lib.init) := by
  unfold trainRun
  repeat' split
  · rename_i h
    exact Or.inl ⟨h, rfl⟩
  · rename_i h x1 h3
    exact Or.inr (Or.inl ⟨by simpa using h, h3, rfl⟩)
  · rename_i h x1 sp h3 x2 f hf x3 hl
    exact Or.inr (Or.inr (Or.inl ⟨sp, f, by simpa using h, h3, hf, hl, rfl⟩))
  · rename_i h x1 sp h3 x2 f hf x3 m hl
    exact Or.inr (Or.inr (Or.inr (Or.inl ⟨sp, f, m, by simpa using h, h3, hf, hl, rfl⟩)))
  · rename_i h x1 sp h3 x2 hf
    exact Or.inr (Or.inr (Or.inr (Or.inr ⟨sp, by simpa using h, h3, hf, rfl⟩)))

theorem genArgs_ok {T : Type} (env : Env T) (argv : List String)
    (L : Int) (t : T) (mc : Int)
    (h : genArgs env argv = .ok (L, t, mc)) :
    ∃ ls ts ms, argv.get? 3 = some ls ∧ pyInt ls = some L ∧
      argv.get? 2 = some ts ∧ env.parseFloat ts = some t ∧
      argv.get? 4 = some ms ∧ pyInt ms = some mc := by
  unfold genArgs at h
  split at h
  · exact absurd h (by simp)
  · rename_i x1 ls h3
    split at h
    · exact absurd h (by simp)
    · rename_i x2 L2 hL
      split at h
      · exact absurd h (by simp)
      · rename_i x3 ts h2
        split at h
        · exact absurd h (by simp)
        · rename_i x4 t2 ht
          split at h
          · exact absurd h (by simp)
          · rename_i x5 ms h4
            split at h
            · exact absurd h (by simp)
            · rename_i x6 mc2 hmc
              have hinj : L2 = L ∧ t2 = t ∧ mc2 = mc := by
                simpa using h
              exact ⟨ls, ts, ms, h3, hinj.1 ▸ hL, h2, hinj.2.1 ▸ ht, h4,
                hinj.2.2 ▸ hmc⟩

theorem genRun_shape {M A T : Type} (env : Env T) (lib : Lib M A T)
    (fs : FS A) (argv : List String) :
    (∃ lp f m L t mc lines,
      argv.get? 1 = some lp ∧ fs lp = some f ∧ lib.load f = some m ∧
      genArgs env argv = .ok (L, t, mc) ∧
      lib.generate m L.toNat t mc = some lines ∧
      genRun env lib fs argv =
        ⟨[.libLoad lp, .libGenerate m L.toNat t mc] ++ lines.map .emit,
         fs, .ok⟩) ∨
    ((genRun env lib fs argv).res ≠ .ok ∧
      outputLines (genRun env lib fs argv).trace = []) := by
  unfold genRun
  repeat' split
  · exact Or.inr ⟨by simp, by simp [outputLines]⟩
  · exact Or.inr ⟨by simp, by simp [outputLines]⟩
  · exact Or.inr ⟨by simp, by simp [outputLines]⟩
  · exact Or.inr ⟨by simp, by simp [outputLines]⟩
  · exact Or.inr ⟨by simp, by simp [outputLines]⟩
  · rename_i x1 lp h1 x2 f h2 x3 m h3 x4 L t mc h4 x5 lines h5
    exact Or.inl ⟨lp, f, m, L, t, mc, lines, h1, h2, h3, h4, h5, rfl⟩

theorem genRun_fs_eq {M A T : Type} (env : Env T) (lib : Lib M A T)
    (fs : FS A) (argv : List String) :
    (genRun env lib fs argv).fs = fs := by
  unfold genRun
  repeat' split
  all_goals rfl

theorem genRun_trace_events {M A T : Type} (env : Env T) (lib : Lib M A T)
    (fs : FS A) (argv : List String) :
    (∀ mh p, Ev.libSave mh p ∉ (genRun env lib fs argv).trace) ∧
    (∀ mh c n, Ev.libTrain mh c n ∉ (genRun env lib fs argv).trace) ∧
    (∀ l, Ev.setAffinity l ∉ (genRun env lib fs argv).trace) := by
  unfold genRun
  repeat' split
  all_goals refine ⟨by intro mh p; simp, by intro mh c n; simp, by intro l; simp⟩

theorem genRun_missing_file {M A T : Type} (env : Env T) (lib : Lib M A T)
    (fs : FS A) (argv : List String) (lp : String)
    (h1 : argv.get? 1 = some lp) (h2 : fs lp = none) :
    genRun env lib fs argv = ⟨[.libLoad lp], fs, .err .libError⟩ := by
  simp only [genRun, h1, h2]

/-! ## Claim theorems -/

theorem trainCont_train_handle {M A T : Type} (lib : Lib M A T) (fs : FS A)
    (argv : List String) (sp : String) (tr : List (Ev M T)) (m : M)
    (htr : ∀ mh c n, Ev.libTrain mh c n ∉ tr) :
    ∀ mh c n, Ev.libTrain mh c n ∈ (trainCont lib fs argv sp tr m).trace →
      mh = m := by
  intro mh c n hmem
  rcases trainCont_shape lib fs argv sp tr m with
    ⟨_, c2, es, n2, cf, m2, _, _, _, _, _, he⟩ | ⟨_, _, suf, he, _, hs⟩
  · rw [he] at hmem
    rcases List.mem_append.1 hmem with hmem | hmem
    · exact absurd hmem (htr _ _ _)
    · simp at hmem
      exact hmem.1
  · rw [he] at hmem
    rcases List.mem_append.1 hmem with hmem | hmem
    · exact absurd hmem (htr _ _ _)
    · exact hs _ _ _ hmem

theorem trainCont_ok_has_train {M A T : Type} (lib : Lib M A T) (fs : FS A)
    (argv : List String) (sp : String) (tr : List (Ev M T)) (m : M)
    (h : (trainCont lib fs argv sp tr m).res = .ok) :
    ∃ c n, Ev.libTrain m c n ∈ (trainCont lib fs argv sp tr m).trace := by
  rcases trainCont_shape lib fs argv sp tr m with
    ⟨_, c2, es, n2, cf, m2, _, _, _, _, _, he⟩ | ⟨hne, _, _⟩
  · refine ⟨c2, n2, ?_⟩
    rw [he]
    simp
  · exact absurd h hne

/-- C7: every Trainer invocation first (before any library work) calls the
OS to restrict the process CPU affinity to the current affinity list minus
its first two entries, which has length "all available CPU threads minus
two". -/
theorem trainer_sets_affinity_first {M A T : Type} (env : Env T)
    (lib : Lib M A T) (fs : FS A) (argv : List String) :
    (trainRun env lib fs argv).trace.head? =
      some (.setAffinity (env.cpus.drop 2)) ∧
    (env.cpus.drop 2).length = env.cpus.length - 2 := by
  refine ⟨?_, by simp⟩
  rcases trainRun_shape env lib fs argv with
    ⟨_, he⟩ | ⟨_, _, he⟩ | ⟨sp, f, _, _, _, _, he⟩ |
    ⟨sp, f, m, _, _, _, _, he⟩ | ⟨sp, _, _, _, he⟩
  · rw [he]
    rfl
  · rw [he]
    rfl
  · rw [he]
    rfl
  · rw [he]
    rcases trainCont_shape lib fs argv sp
        [.setAffinity (env.cpus.drop 2), .libInit, .libLoad sp] m with
      ⟨_, c, es, n, cf, m2, _, _, _, _, _, he2⟩ | ⟨_, _, suf, he2, _, _⟩
    · rw [he2]
      rfl
    · rw [he2]
      rfl
  · rw [he]
    rcases trainCont_shape lib fs argv sp
        [.setAffinity (env.cpus.drop 2), .libInit] lib.init with
      ⟨_, c, es, n, cf, m2, _, _, _, _, _, he2⟩ | ⟨_, _, suf, he2, _, _⟩
    · rw [he2]
      rfl
    · rw [he2]
      rfl

/-- C8: a Generator invocation never mutates the file system (in particular
not the model artifact at the load path) and performs no save or train
library call; the emitted lines are its only output. -/
theorem generator_no_persistent_mutation {M A T : Type} (env : Env T)
    (lib : Lib M A T) (fs : FS A) (argv : List String) :
    (genRun env lib fs argv).fs = fs ∧
    (∀ mh p, Ev.libSave mh p ∉ (genRun env lib fs argv).trace) ∧
    (∀ mh c n, Ev.libTrain mh c n ∉ (genRun env lib fs argv).trace) :=
  ⟨genRun_fs_eq env lib fs argv, (genRun_trace_events env lib fs argv).1,
   (genRun_trace_events env lib fs argv).2.1⟩

/-- C1: in a Trainer invocation, when a file exists at the save path and
loads as model `m`, every training call runs on `m`; when no file exists
there, every training call runs on the freshly initialized model; and a
successful run does reach a training call on that handle. -/
theorem trainer_resume_or_create {M A T : Type} (env : Env T)
    (lib : Lib M A T) (fs : FS A) (argv : List String) (savePath : String)
    (hsp : argv.get? 3 = some savePath) :
    (∀ f m, fs savePath = some f → lib.load f = some m →
      ∀ mh c n, Ev.libTrain mh c n ∈ (trainRun env lib fs argv).trace →
        mh = m) ∧
    (fs savePath = none →
      ∀ mh c n, Ev.libTrain mh c n ∈ (trainRun env lib fs argv).trace →
        mh = lib.init) ∧
    ((trainRun env lib fs argv).res = .ok →
      ∃ mh c n, Ev.libTrain mh c n ∈ (trainRun env lib fs argv).trace) := by
  rcases trainRun_shape env lib fs argv with
    ⟨_, he⟩ | ⟨_, h3, he⟩ | ⟨sp, f0, _, h3, hf0, hl0, he⟩ |
    ⟨sp, f0, m0, _, h3, hf0, hl0, he⟩ | ⟨sp, _, h3, hf0, he⟩
  · refine ⟨?_, ?_, ?_⟩
    · intro f m _ _ mh c n hmem
      rw [he] at hmem
      simp at hmem
    · intro _ mh c n hmem
      rw [he] at hmem
      simp at hmem
    · intro hok
      rw [he] at hok
      simp at hok
  · rw [hsp] at h3
    cases h3
  · rw [hsp] at h3
    injection h3 with h3
    subst h3
    refine ⟨?_, ?_, ?_⟩
    · intro f m hf hl mh c n hmem
      rw [hf] at hf0
      injection hf0 with hf0
      subst hf0
      rw [hl] at hl0
      cases hl0
    · intro hnone
      rw [hnone] at hf0
      cases hf0
    · intro hok
      rw [he] at hok
      simp at hok
  · rw [hsp] at h3
    injection h3 with h3
    subst h3
    refine ⟨?_, ?_, ?_⟩
    · intro f m hf hl mh c n hmem
      rw [hf] at hf0
      injection hf0 with hf0
      subst hf0
      rw [hl] at hl0
      injection hl0 with hl0
      subst hl0
      rw [he] at hmem
      exact trainCont_train_handle lib fs argv savePath _ m (by simp) mh c n hmem
    · intro hnone
      rw [hnone] at hf0
      cases hf0
    · intro hok
      rw [he] at hok ⊢
      rcases trainCont_ok_has_train lib fs argv savePath _ m0 hok with ⟨c, n, hm⟩
      exact ⟨m0, c, n, hm⟩
  · rw [hsp] at h3
    injection h3 with h3
    subst h3
    refine ⟨?_, ?_, ?_⟩
    · intro f m hf hl mh c n hmem
      rw [hf] at hf0
      cases hf0
    · intro _ mh c n hmem
      rw [he] at hmem
      exact trainCont_train_handle lib fs argv savePath _ lib.init (by simp) mh c n hmem
    · intro hok
      rw [he] at hok ⊢
      rcases trainCont_ok_has_train lib fs argv savePath _ lib.init hok with ⟨c, n, hm⟩
      exact ⟨lib.init, c, n, hm⟩

/-- C4: a successful Trainer invocation makes exactly one training call,
with the epoch count parsed from `argv[2]` and the corpus path from
`argv[1]` (the library contract runs that many passes), performs the save
to the save path only after that call (it is the final event, with no
earlier save), and the resulting file system holds the trained model's
artifact at the save path, overwriting whatever was there. -/
theorem trainer_trains_then_saves {M A T : Type} (env : Env T)
    (lib : Lib M A T) (fs : FS A) (argv : List String)
    (corpus es savePath : String) (N : Int)
    (h1 : argv.get? 1 = some corpus) (h2 : argv.get? 2 = some es)
    (hN : pyInt es = some N) (hsp : argv.get? 3 = some savePath)
    (hok : (trainRun env lib fs argv).res = .ok) :
    ∃ pre m cf m2,
      fs corpus = some cf ∧
      lib.train_from_file m cf N = some m2 ∧
      (trainRun env lib fs argv).trace =
        pre ++ [.libTrain m corpus N, .libSave m2 savePath] ∧
      (∀ e ∈ pre, ∀ mh p, e ≠ Ev.libSave mh p) ∧
      (trainRun env lib fs argv).fs =
        fsUpdate fs savePath (.artifact (lib.save m2)) := by
  rcases trainRun_shape env lib fs argv with
    ⟨_, he⟩ | ⟨_, h3, he⟩ | ⟨sp, f0, _, h3, hf0, hl0, he⟩ |
    ⟨sp, f0, m0, _, h3, hf0, hl0, he⟩ | ⟨sp, _, h3, hf0, he⟩
  · rw [he] at hok
    simp at hok
  · rw [hsp] at h3
    cases h3
  · rw [he] at hok
    simp at hok
  · rw [hsp] at h3
    injection h3 with h3
    subst h3
    rw [he] at hok
    rcases trainCont_shape lib fs argv savePath
        [.setAffinity (env.cpus.drop 2), .libInit, .libLoad savePath] m0 with
      ⟨_, c, es2, n, cf, m2, hc, hes, hn, hcf, htf, he2⟩ | ⟨hne, _, _⟩
    · rw [hc] at h1
      injection h1 with h1
      subst h1
      rw [hes] at h2
      injection h2 with h2
      subst h2
      rw [hn] at hN
      injection hN with hN
      subst hN
      refine ⟨[.setAffinity (env.cpus.drop 2), .libInit, .libLoad savePath],
        m0, cf, m2, hcf, htf, ?_, by simp, ?_⟩
      · rw [he, he2]
      · rw [he, he2]
    · exact absurd hok hne
  · rw [hsp] at h3
    injection h3 with h3
    subst h3
    rw [he] at hok
    rcases trainCont_shape lib fs argv savePath
        [.setAffinity (env.cpus.drop 2), .libInit] lib.init with
      ⟨_, c, es2, n, cf, m2, hc, hes, hn, hcf, htf, he2⟩ | ⟨hne, _, _⟩
    · rw [hc] at h1
      injection h1 with h1
      subst h1
      rw [hes] at h2
      injection h2 with h2
      subst h2
      rw [hn] at hN
      injection hN with hN
      subst hN
      refine ⟨[.setAffinity (env.cpus.drop 2), .libInit],
        lib.init, cf, m2, hcf, htf, ?_, by simp, ?_⟩
      · rw [he, he2]
      · rw [he, he2]
    · exact absurd hok hne

/-- C5: after a successful Trainer invocation whose save path held no file
beforehand, the save path holds a model artifact, and loading that artifact
succeeds (the library's save/load round-trip guarantee). -/
theorem trainer_roundtrip {M A T : Type} (env : Env T) (lib : Lib M A T)
    (fs : FS A) (argv : List String) (savePath : String)
    (hlib : LawfulLib lib)
    (hsp : argv.get? 3 = some savePath)
    (h0 : fs savePath = none)
    (hok : (trainRun env lib fs argv).res = .ok) :
    ∃ a, (trainRun env lib fs argv).fs savePath = some (.artifact a) ∧
      (lib.load (File.artifact a)).isSome = true := by
  rcases trainRun_shape env lib fs argv with
    ⟨_, he⟩ | ⟨_, h3, he⟩ | ⟨sp, f0, _, h3, hf0, hl0, he⟩ |
    ⟨sp, f0, m0, _, h3, hf0, hl0, he⟩ | ⟨sp, _, h3, hf0, he⟩
  · rw [he] at hok
    simp at hok
  · rw [hsp] at h3
    cases h3
  · rw [he] at hok
    simp at hok
  · rw [hsp] at h3
    injection h3 with h3
    subst h3
    rw [h0] at hf0
    cases hf0
  · rw [hsp] at h3
    injection h3 with h3
    subst h3
    rw [he] at hok ⊢
    rcases trainCont_shape lib fs argv savePath
        [.setAffinity (env.cpus.drop 2), .libInit] lib.init with
      ⟨_, c, es2, n, cf, m2, hc, hes, hn, hcf, htf, he2⟩ | ⟨hne, _, _⟩
    · refine ⟨lib.save m2, ?_, hlib.saveLoadable m2⟩
      rw [he2]
      simp [fsUpdate]
    · exact absurd hok hne

/-- C9: a Trainer invocation that does not succeed leaves the file system
untouched and performs no save call: the save happens only after training
completed successfully. -/
theorem trainer_no_save_on_error {M A T : Type} (env : Env T)
    (lib : Lib M A T) (fs : FS A) (argv : List String)
    (h : (trainRun env lib fs argv).res ≠ .ok) :
    (trainRun env lib fs argv).fs = fs ∧
    ∀ mh p, Ev.libSave mh p ∉ (trainRun env lib fs argv).trace := by
  rcases trainRun_shape env lib fs argv with
    ⟨_, he⟩ | ⟨_, h3, he⟩ | ⟨sp, f0, _, h3, hf0, hl0, he⟩ |
    ⟨sp, f0, m0, _, h3, hf0, hl0, he⟩ | ⟨sp, _, h3, hf0, he⟩
  · rw [he]
    exact ⟨rfl, by intro mh p; simp⟩
  · rw [he]
    exact ⟨rfl, by intro mh p; simp⟩
  · rw [he]
    exact ⟨rfl, by intro mh p; simp⟩
  · rw [he] at h ⊢
    rcases trainCont_shape lib fs argv sp
        [.setAffinity (env.cpus.drop 2), .libInit, .libLoad sp] m0 with
      ⟨hres, _⟩ | ⟨_, hfs, suf, htr, hns, _⟩
    · exact absurd hres h
    · refine ⟨hfs, ?_⟩
      intro mh p hmem
      rw [htr] at hmem
      rcases List.mem_append.1 hmem with hmem | hmem
      · simp at hmem
      · exact hns mh p hmem
  · rw [he] at h ⊢
    rcases trainCont_shape lib fs argv sp
        [.setAffinity (env.cpus.drop 2), .libInit] lib.init with
      ⟨hres, _⟩ | ⟨_, hfs, suf, htr, hns, _⟩
    · exact absurd hres h
    · refine ⟨hfs, ?_⟩
      intro mh p hmem
      rw [htr] at hmem
      rcases List.mem_append.1 hmem with hmem | hmem
      · simp at hmem
      · exact hns mh p hmem

/-- C2: a Generator invocation whose line-count argument parses to a
positive `L` either succeeds and emits exactly `L` lines, or fails without
emitting any line; and when no file exists at the load path it fails with a
nonzero exit code and no output. -/
theorem generator_line_count {M A T : Type} (env : Env T) (lib : Lib M A T)
    (fs : FS A) (argv : List String) (ls : String) (L : Int)
    (hlib : LawfulLib lib)
    (h3 : argv.get? 3 = some ls) (hL : pyInt ls = some L) (hpos : 0 < L) :
    ((genRun env lib fs argv).res = .ok →
      ((outputLines (genRun env lib fs argv).trace).length : Int) = L) ∧
    ((genRun env lib fs argv).res ≠ .ok →
      outputLines (genRun env lib fs argv).trace = []) ∧
    (∀ lp, argv.get? 1 = some lp → fs lp = none →
      exitCode (genRun env lib fs argv).res ≠ 0 ∧
      outputLines (genRun env lib fs argv).trace = []) := by
  rcases genRun_shape env lib fs argv with
    ⟨lp, f, m, L2, t, mc, lines, h1, hf, hm, hga, hgen, he⟩ | ⟨hne, hout⟩
  · rcases genArgs_ok env argv L2 t mc hga with
      ⟨ls2, ts, ms, hls2, hL2, _, _, _, _⟩
    rw [h3] at hls2
    injection hls2 with hls2
    subst hls2
    rw [hL] at hL2
    injection hL2 with hL2
    subst hL2
    refine ⟨?_, ?_, ?_⟩
    · intro _
      rw [he]
      have hlines : outputLines
          ([Ev.libLoad lp, Ev.libGenerate m L.toNat t mc] ++ lines.map .emit)
          = lines := by
        rw [outputLines_append, outputLines_map_emit]
        rfl
      show ((outputLines
          ([Ev.libLoad lp, Ev.libGenerate m L.toNat t mc] ++ lines.map .emit)).length : Int) = L
      rw [hlines, hlib.genCount m L.toNat t mc lines hgen]
      exact Int.toNat_of_nonneg hpos.le
    · intro hne2
      rw [he] at hne2
      exact absurd rfl hne2
    · intro lp2 h1b hfb
      rw [h1] at h1b
      injection h1b with h1b
      subst h1b
      rw [hfb] at hf
      cases hf
  · refine ⟨?_, fun _ => hout, ?_⟩
    · intro hok
      exact absurd hok hne
    · intro lp h1 hf
      have he := genRun_missing_file env lib fs argv lp h1 hf
      rw [he]
      exact ⟨by simp [exitCode], rfl⟩

/-- C3: in a successful Generator invocation whose max-chars argument
parses to `mc`, every emitted line has length at most `mc` (the library
contract caps generation at `max_gen_length`). -/
theorem generator_max_chars {M A T : Type} (env : Env T) (lib : Lib M A T)
    (fs : FS A) (argv : List String) (ms : String) (mc : Int)
    (hlib : LawfulLib lib)
    (h4 : argv.get? 4 = some ms) (hmc : pyInt ms = some mc)
    (hok : (genRun env lib fs argv).res = .ok) :
    ∀ s ∈ outputLines (genRun env lib fs argv).trace,
      (s.length : Int) ≤ mc := by
  rcases genRun_shape env lib fs argv with
    ⟨lp, f, m, L, t, mc2, lines, h1, hf, hm, hga, hgen, he⟩ | ⟨hne, hout⟩
  · rcases genArgs_ok env argv L t mc2 hga with
      ⟨ls2, ts, ms2, _, _, _, _, hms2, hmc2⟩
    rw [h4] at hms2
    injection hms2 with hms2
    subst hms2
    rw [hmc] at hmc2
    injection hmc2 with hmc2
    subst hmc2
    intro s hs
    rw [he] at hs
    have hlines : outputLines
        ([Ev.libLoad lp, Ev.libGenerate m L.toNat t mc] ++ lines.map .emit)
        = lines := by
      rw [outputLines_append, outputLines_map_emit]
      rfl
    have hs2 : s ∈ lines := by
      rw [← hlines]
      exact hs
    exact hlib.genMaxLen m L.toNat t mc lines s hgen hs2
  · exact absurd hok hne

theorem natLib_lawful : LawfulLib natLib := by
  refine ⟨?_, ?_, ?_⟩
  · intro m n t len out h
    simp only [natLib] at h
    split at h
    · injection h with h
      subst h
      exact List.length_replicate n ""
    · cases h
  · intro m n t len out s h hs
    simp only [natLib] at h
    split at h
    · rename_i hlen
      injection h with h
      subst h
      have hse : s = "" := List.eq_of_mem_replicate hs
      subst hse
      simpa using hlen
    · cases h
  · intro m
    rfl

/-- C6 counterexample: with a malformed epochs argument `"zz"`, `train.py`
still performs library operations — model initialization and checkpoint
load — before the numeric error surfaces, so the failure is not detected at
argument-parsing time before any library operation. -/
theorem config_error_after_lib_ops_cex :
    (trainRun demoEnv natLib demoFs
        ["train.py", "corpus.txt", "zz", "model.bin"]).res = .err .valueError ∧
    Ev.libInit ∈ (trainRun demoEnv natLib demoFs
        ["train.py", "corpus.txt", "zz", "model.bin"]).trace ∧
    Ev.libLoad "model.bin" ∈ (trainRun demoEnv natLib demoFs
        ["train.py", "corpus.txt", "zz", "model.bin"]).trace := by decide

/-- C6 (amended): invalid or malformed arguments are fatal and exit
nonzero, but they are detected at the point of first use, not at a
dedicated argument-parsing phase: in `train.py` a malformed epochs value
raises only after the model handle was initialized (file system left
unchanged), and in `generate.py` a malformed numeric argument raises only
after the model was loaded. -/
theorem malformed_numeric_fatal_at_use {M A T : Type} (env : Env T)
    (lib : Lib M A T) (fs : FS A) (argv : List String) :
    (∀ corpus es savePath,
      env.affinityFails (env.cpus.drop 2) = false →
      argv.get? 3 = some savePath → fs savePath = none →
      argv.get? 1 = some corpus → argv.get? 2 = some es → pyInt es = none →
      (trainRun env lib fs argv).res = .err .valueError ∧
      exitCode (trainRun env lib fs argv).res ≠ 0 ∧
      Ev.libInit ∈ (trainRun env lib fs argv).trace ∧
      (trainRun env lib fs argv).fs = fs) ∧
    (∀ lp f m ls,
      argv.get? 1 = some lp → fs lp = some f → lib.load f = some m →
      argv.get? 3 = some ls → pyInt ls = none →
      (genRun env lib fs argv).res = .err .valueError ∧
      exitCode (genRun env lib fs argv).res ≠ 0 ∧
      Ev.libLoad lp ∈ (genRun env lib fs argv).trace) := by
  constructor
  · intro corpus es savePath haff hsp hnf h1 h2 hbad
    have he : trainRun env lib fs argv =
        ⟨[.setAffinity (env.cpus.drop 2), .libInit], fs, .err .valueError⟩ := by
      simp only [trainRun, trainCont, haff, hsp, hnf, h1, h2, hbad,
        Bool.false_eq_true, if_false]
    rw [he]
    exact ⟨rfl, by simp [exitCode], by simp, rfl⟩
  · intro lp f m ls h1 hf hm h3 hbad
    have he : genRun env lib fs argv =
        ⟨[.libLoad lp], fs, .err .valueError⟩ := by
      simp only [genRun, genArgs, h1, hf, hm, h3, hbad]
    rw [he]
    exact ⟨rfl, by simp [exitCode], by simp⟩

/-- C10 counterexample: a Trainer process starting with only two CPUs in
its affinity set, on a platform whose affinity call accepts an empty list
(psutil ≥ 4.2.0 reads an empty list as "all eligible CPUs"), does not
terminate at the affinity call: the run proceeds to create, train and save
a model, finishing successfully. -/
theorem small_affinity_cex :
    tinyEnv.cpus.length ≤ 2 ∧
    (trainRun tinyEnv natLib corpusFs
        ["train.py", "corpus.txt", "5", "model.bin"]).res = .ok ∧
    Ev.libInit ∈ (trainRun tinyEnv natLib corpusFs
        ["train.py", "corpus.txt", "5", "model.bin"]).trace := by decide

/-- C10 (amended): when the starting affinity set has at most two CPUs,
dropping the first two entries yields the empty list; on a platform whose
affinity call rejects an empty list, the script then terminates at that
call, before any model is created, trained or saved — the trace holds only
the affinity call and the file system is untouched.  Platforms that accept
the empty list continue the run instead. -/
theorem small_affinity_empty {M A T : Type} (env : Env T) (lib : Lib M A T)
    (fs : FS A) (argv : List String) (hc : env.cpus.length ≤ 2) :
    env.cpus.drop 2 = [] ∧
    (env.affinityFails [] = true →
      trainRun env lib fs argv =
        ⟨[.setAffinity []], fs, .err .affinityError⟩) := by
  have hdrop : env.cpus.drop 2 = [] := List.drop_eq_nil_of_le hc
  refine ⟨hdrop, ?_⟩
  intro hfail
  simp [trainRun, hdrop, hfail]

/-! ## Witnesses -/

theorem trainer_resume_or_create_witness :
    ∃ mh c n, Ev.libTrain mh c n ∈ (trainRun demoEnv natLib demoFs
      ["train.py", "corpus.txt", "5", "model.bin"]).trace :=
  (trainer_resume_or_create demoEnv natLib demoFs
    ["train.py", "corpus.txt", "5", "model.bin"] "model.bin"
    (by decide)).2.2 (by decide)

theorem generator_line_count_witness :
    ((outputLines (genRun demoEnv natLib demoFs
        ["generate.py", "model.bin", "1", "3", "100"]).trace).length : Int) = 3 :=
  (generator_line_count demoEnv natLib demoFs
    ["generate.py", "model.bin", "1", "3", "100"] "3" 3 natLib_lawful
    (by decide) (by decide) (by decide)).1 (by decide)

theorem generator_max_chars_witness :
    ((("" : String).length : Int)) ≤ 100 :=
  generator_max_chars demoEnv natLib demoFs
    ["generate.py", "model.bin", "1", "3", "100"] "100" 100 natLib_lawful
    (by decide) (by decide) (by decide) "" (by decide)

theorem trainer_trains_then_saves_witness :
    ∃ pre m cf m2,
      demoFs "corpus.txt" = some cf ∧
      natLib.train_from_file m cf 5 = some m2 ∧
      (trainRun demoEnv natLib demoFs
        ["train.py", "corpus.txt", "5", "model.bin"]).trace =
        pre ++ [.libTrain m "corpus.txt" 5, .libSave m2 "model.bin"] ∧
      (∀ e ∈ pre, ∀ mh p, e ≠ Ev.libSave mh p) ∧
      (trainRun demoEnv natLib demoFs
        ["train.py", "corpus.txt", "5", "model.bin"]).fs =
        fsUpdate demoFs "model.bin" (.artifact (natLib.save m2)) :=
  trainer_trains_then_saves demoEnv natLib demoFs
    ["train.py", "corpus.txt", "5", "model.bin"] "corpus.txt" "5" "model.bin" 5
    (by decide) (by decide) (by decide) (by decide) (by decide)

theorem trainer_roundtrip_witness :
    ∃ a, (trainRun demoEnv natLib corpusFs
        ["train.py", "corpus.txt", "5", "model.bin"]).fs "model.bin" =
          some (.artifact a) ∧
      (natLib.load (File.artifact a)).isSome = true :=
  trainer_roundtrip demoEnv natLib corpusFs
    ["train.py", "corpus.txt", "5", "model.bin"] "model.bin" natLib_lawful
    (by decide) (by decide) (by decide)

theorem trainer_no_save_on_error_witness :
    (trainRun demoEnv natLib demoFs ["train.py"]).fs = demoFs :=
  (trainer_no_save_on_error demoEnv natLib demoFs ["train.py"] (by decide)).1

theorem malformed_numeric_fatal_at_use_witness :
    (trainRun demoEnv natLib corpusFs
      ["train.py", "corpus.txt", "zz", "model.bin"]).res = .err .valueError :=
  ((malformed_numeric_fatal_at_use demoEnv natLib corpusFs
    ["train.py", "corpus.txt", "zz", "model.bin"]).1 "corpus.txt" "zz" "model.bin"
    (by decide) (by decide) (by decide) (by decide) (by decide) (by decide)).1

theorem small_affinity_empty_witness :
    trainRun strictEnv natLib emptyFs ["train.py"] =
      ⟨[.setAffinity []], emptyFs, .err .affinityError⟩ :=
  (small_affinity_empty strictEnv natLib emptyFs ["train.py"]
    (by decide)).2 (by decide)
